import Mathlib

/-!
Verification of the dynamic-story-game narrative engine.

This file is a shallow embedding of the story-graph execution core:
the runtime JavaScript value model, the StoryNode accessors
(condition evaluation, available-choice filtering), the StoryManager
state machine (navigateToNode, makeChoice), the StoryParser validator,
the CharacterActionGenerator and the CharacterStateManager.
Definitions mirror the TypeScript source; theorems settle the
specification claims about them.
-/

set_option autoImplicit false

namespace DynStory

/-! ## JavaScript runtime values

Story game state, character custom state and state-change records are
untyped JavaScript values at runtime.  Numbers are modelled as rationals
(JS numbers are floating point; none of the verified code depends on
rounding).  Object and array equality under the strict-equality operator
is referential in JS; the model uses structural equality, which only
affects comparisons between two objects/arrays and none of the theorems
below depend on that case. -/

inductive JSVal where
  | undefined
  | jnull
  | bool (b : Bool)
  | num (q : Rat)
  | str (s : String)
  | arr (elems : List JSVal)
  | obj (fields : List (String × JSVal))

namespace JSVal

mutual

/-- Structural equality test on JS values. -/
def beq : JSVal → JSVal → Bool
  | .undefined, .undefined => true
  | .jnull, .jnull => true
  | .bool a, .bool b => a == b
  | .num a, .num b => a == b
  | .str a, .str b => a == b
  | .arr xs, .arr ys => beqList xs ys
  | .obj xs, .obj ys => beqFields xs ys
  | _, _ => false

def beqList : List JSVal → List JSVal → Bool
  | [], [] => true
  | x :: xs, y :: ys => beq x y && beqList xs ys
  | _, _ => false

def beqFields : List (String × JSVal) → List (String × JSVal) → Bool
  | [], [] => true
  | (k, v) :: xs, (l, w) :: ys => k == l && beq v w && beqFields xs ys
  | _, _ => false

end

instance : BEq JSVal := ⟨beq⟩

/-- JS: value is null or undefined. -/
def isNullish : JSVal → Bool
  | .undefined => true
  | .jnull => true
  | _ => false

/-- Property access v[p].  On an object this is own-property lookup
(absent keys give undefined); on any other non-nullish value the model
returns undefined (property access on primitives yields undefined for
the property names used by the engine).  On null/undefined JS throws a
TypeError, modelled as the error case. -/
def index : JSVal → String → Except Unit JSVal
  | .undefined, _ => .error ()
  | .jnull, _ => .error ()
  | .obj fields, p =>
      match fields.lookup p with
      | some v => .ok v
      | none => .ok .undefined
  | _, _ => .ok .undefined

/-- JS strict equality (===) restricted to the value domain above.
Structural on primitives; see the module comment for objects/arrays. -/
def strictEq (a b : JSVal) : Bool := beq a b

/-- Numeric coercion used by the relational operators: null is 0,
booleans are 0/1, undefined is NaN (none).  String-to-number coercion
is not modelled (the engine compares numeric state values). -/
def toNum : JSVal → Option Rat
  | .num q => some q
  | .bool b => some (if b then 1 else 0)
  | .jnull => some 0
  | _ => none

/-- JS relational comparison a < b: lexicographic when both are strings,
numeric after coercion otherwise; false whenever a coercion gives NaN. -/
def jsLt (a b : JSVal) : Bool :=
  match a, b with
  | .str s, .str t => decide (s < t)
  | _, _ =>
      match a.toNum, b.toNum with
      | some x, some y => decide (x < y)
      | _, _ => false

/-- JS relational comparison a <= b, same coercion rules as jsLt. -/
def jsLe (a b : JSVal) : Bool :=
  match a, b with
  | .str s, .str t => decide (s ≤ t)
  | _, _ =>
      match a.toNum, b.toNum with
      | some x, some y => decide (x ≤ y)
      | _, _ => false

end JSVal

/-- sub occurs at the head of l. -/
def charsHaveHead : List Char → List Char → Bool
  | [], _ => true
  | _ :: _, [] => false
  | c :: cs, d :: ds => c = d && charsHaveHead cs ds

/-- sub occurs somewhere in l. -/
def charsInclude (l sub : List Char) : Bool :=
  match l with
  | [] => sub.isEmpty
  | _ :: rest => charsHaveHead sub l || charsInclude rest sub

/-- JS substring test s.includes(sub). -/
def strIncludes (s sub : String) : Bool :=
  charsInclude s.toList sub.toList

/-- Splitting accumulator for jsSplitDot. -/
def splitDotAux : List Char → List Char → List String
  | [], acc => [String.mk acc.reverse]
  | c :: rest, acc =>
      if c = '.' then String.mk acc.reverse :: splitDotAux rest []
      else splitDotAux rest (c :: acc)

/-- JS s.split("."): the dot-separated segments, with [""] for the
empty string and empty segments kept, as in JavaScript. -/
def jsSplitDot (s : String) : List String :=
  splitDotAux s.toList []

/-! ## Game state

this.gameState is a Record of string keys to JS values; object spread
{...a, ...b} overrides the keys of b, keeping the position of existing
keys and appending new ones. -/

def GameState := List (String × JSVal)

/-- Set one key in a string-keyed record or Map: replace the value in
place when the key exists, append otherwise (both JS object-spread and
Map.set keep the position of existing keys). -/
def recordSet {α : Type} (gs : List (String × α)) (k : String) (v : α) :
    List (String × α) :=
  match gs with
  | [] => [(k, v)]
  | (k', v') :: rest =>
      if k' = k then (k', v) :: rest else (k', v') :: recordSet rest k v

/-- {...gs, ...changes}: apply every changed key in order. -/
def applyChanges (gs : List (String × JSVal)) (changes : List (String × JSVal)) :
    List (String × JSVal) :=
  changes.foldl (fun acc kv => recordSet acc kv.1 kv.2) gs

/-! ## Story document model (StoryData.ts)

Condition strings are compiled with the Function constructor and run
against the game state; the compiled evaluation (including any thrown
error) is modelled as a function into Except.  The onEnter/onExit
mutation scripts are run with thrown errors caught and logged, so their
net effect on the state is a total function. -/

/-- A compiled condition expression: evaluation either yields the
boolean result or throws. -/
def CondExpr := List (String × JSVal) → Except String Bool

/-- A compiled onEnter/onExit script: net effect on the game state
(script errors are caught by the caller, leaving whatever mutations had
already been applied, which the function value itself represents). -/
def Script := List (String × JSVal) → List (String × JSVal)

inductive NodeType where
  | dialogue
  | scene
  | choice
  | branch
  | «end»
  deriving DecidableEq, Repr

structure StoryChoice where
  id : String
  text : String
  nextNode : String
  condition : Option CondExpr := none
  stateChanges : Option (List (String × JSVal)) := none

/-- Character declaration inside a scene node. -/
structure SceneCharDecl where
  id : String
  position : String
  expression : Option String := none
  deriving DecidableEq, Repr

structure StoryAnimation where
  target : String
  animType : String
  duration : Option Rat := none
  parameters : Option JSVal := none

/-- metadata.transition is either a plain string or an object with a
type field. -/
inductive TransitionSpec where
  | plain (s : String)
  | detailed (ty : String)
  deriving DecidableEq, Repr

structure NodeMetadata where
  transition : Option TransitionSpec := none
  deriving DecidableEq, Repr

structure StoryNode where
  id : String
  type : NodeType
  text : Option String := none
  character : Option String := none
  mood : Option String := none
  choices : Option (List StoryChoice) := none
  sceneId : Option String := none
  characters : Option (List SceneCharDecl) := none
  condition : Option CondExpr := none
  onEnter : Option Script := none
  onExit : Option Script := none
  nextNode : Option String := none
  stateChanges : Option (List (String × JSVal)) := none
  animations : Option (List StoryAnimation) := none
  metadata : Option NodeMetadata := none

namespace StoryNode

/-- getSceneId: the scene id, only for scene type nodes. -/
def getSceneId (n : StoryNode) : Option String :=
  if n.type = .scene then n.sceneId else none

/-- evaluateCondition: no condition means true; a condition that throws
during evaluation is logged and treated as false. -/
def evaluateCondition (n : StoryNode) (gameState : List (String × JSVal)) : Bool :=
  match n.condition with
  | none => true
  | some c =>
      match c gameState with
      | .ok b => b
      | .error _ => false

/-- executeOnEnter: run the optional entry script (errors caught). -/
def executeOnEnter (n : StoryNode) (gameState : List (String × JSVal)) :
    List (String × JSVal) :=
  match n.onEnter with
  | none => gameState
  | some f => f gameState

/-- executeOnExit: run the optional exit script (errors caught). -/
def executeOnExit (n : StoryNode) (gameState : List (String × JSVal)) :
    List (String × JSVal) :=
  match n.onExit with
  | none => gameState
  | some f => f gameState

/-- One choice passes the availability filter: condition absent, or the
condition evaluates without error to its result (errors are false). -/
def choicePasses (gameState : List (String × JSVal)) (c : StoryChoice) : Bool :=
  match c.condition with
  | none => true
  | some f =>
      match f gameState with
      | .ok b => b
      | .error _ => false

/-- getAvailableChoices: empty for nodes without a choice list, else
the declared choices filtered by their conditions. -/
def getAvailableChoices (n : StoryNode) (gameState : List (String × JSVal)) :
    List StoryChoice :=
  match n.choices with
  | none => []
  | some cs => cs.filter (choicePasses gameState)

end StoryNode

/-! ## StoryManager (graph executor)

The manager owns the node map, the current node, the game state and the
history.  Event emission is modelled as an ordered trace; the throw
statements of the TypeScript methods are modelled as an error field set
on the result, with the state at the moment of the throw preserved
(in the source a throw leaves the already-performed mutations in
place).  The setTimeout-deferred auto-progression does not run inside
navigateToNode; it is returned as a pending action. -/

inductive SMEvent where
  | nodeExit (node : StoryNode)
  | stateChanged (newState prevState changes : List (String × JSVal))
  | nodeEnter (current : StoryNode) (prev : Option StoryNode)
  | choiceMade (choice : StoryChoice) (index : Int)

inductive SMError where
  | nodeNotFound (id : String)
  | notChoiceNode
  | invalidChoice (index : Int)
  deriving DecidableEq, Repr

/-- Action scheduled by handleAutoProgress through a zero-delay timer. -/
inductive AutoAction where
  | switchScene (sceneId transitionType : String)
  | navigate (nodeId : String)

structure SMState where
  nodes : List (String × StoryNode)
  currentNode : Option StoryNode := none
  gameState : List (String × JSVal) := []
  history : List String := []

structure SMResult where
  state : SMState
  error : Option SMError := none
  events : List SMEvent := []
  pending : Option AutoAction := none

/-- Map.has on the node map. -/
def SMState.hasNode (sm : SMState) (nodeId : String) : Bool :=
  (sm.nodes.lookup nodeId).isSome

/-- updateGameState: merge the changes over the current state and emit
a state-changed event carrying new state, previous state and changes. -/
def SMState.updateGameState (sm : SMState) (changes : List (String × JSVal)) :
    SMState × SMEvent :=
  let prevState := sm.gameState
  let newState := applyChanges sm.gameState changes
  ({ sm with gameState := newState }, .stateChanged newState prevState changes)

/-- metadata?.transition || 'default', then .type when it is an object. -/
def transitionTypeOf (metadata : Option NodeMetadata) : String :=
  match metadata with
  | none => "default"
  | some m =>
      match m.transition with
      | none => "default"
      | some (.plain s) => s
      | some (.detailed ty) => ty

/-- handleAutoProgress: compute the deferred action for the current
node type; scene nodes switch to a resolvable scene or else fall
through to nextNode, branch nodes navigate when their condition holds,
dialogue/choice/end nodes never auto-progress. -/
def handleAutoProgress (sm : SMState) (hasScene : String → Bool) :
    Option AutoAction :=
  match sm.currentNode with
  | none => none
  | some n =>
      match n.type with
      | .scene =>
          match n.getSceneId with
          | some sceneId =>
              if hasScene sceneId then
                some (.switchScene sceneId (transitionTypeOf n.metadata))
              else
                n.nextNode.map .navigate
          | none => n.nextNode.map .navigate
      | .branch =>
          if n.evaluateCondition sm.gameState then
            n.nextNode.map .navigate
          else
            none
      | _ => none

/-- navigateToNode: unknown target throws; otherwise run onExit of the
current node and emit the exit event, set the current node, append to
history, apply the unconditional stateChanges, run onEnter, emit the
enter event with the new and previous node, and hand back the deferred
auto-progression. -/
def navigateToNode (sm : SMState) (hasScene : String → Bool) (nodeId : String) :
    SMResult :=
  match sm.nodes.lookup nodeId with
  | none => { state := sm, error := some (.nodeNotFound nodeId) }
  | some target =>
      let exitEvents : List SMEvent :=
        match sm.currentNode with
        | some cn => [.nodeExit cn]
        | none => []
      let gsAfterExit :=
        match sm.currentNode with
        | some cn => cn.executeOnExit sm.gameState
        | none => sm.gameState
      let prevNode := sm.currentNode
      let sm1 : SMState :=
        { sm with
            currentNode := some target
            gameState := gsAfterExit
            history := sm.history ++ [nodeId] }
      let (sm2, changeEvents) :=
        match target.stateChanges with
        | some changes =>
            let (sm', ev) := sm1.updateGameState changes
            (sm', [ev])
        | none => (sm1, [])
      let sm3 : SMState :=
        { sm2 with gameState := target.executeOnEnter sm2.gameState }
      { state := sm3
        error := none
        events := exitEvents ++ changeEvents ++ [.nodeEnter target prevNode]
        pending := handleAutoProgress sm3 hasScene }

/-- makeChoice: requires a current choice node; resolves the index
against the available choices, throwing on an out-of-range index before
any mutation; then applies the choice's stateChanges, emits the
choice-made event and navigates to the choice's nextNode. -/
def makeChoice (sm : SMState) (hasScene : String → Bool) (choiceIndex : Int) :
    SMResult :=
  match sm.currentNode with
  | none => { state := sm, error := some .notChoiceNode }
  | some cn =>
      if cn.type ≠ .choice then
        { state := sm, error := some .notChoiceNode }
      else
        let availableChoices := cn.getAvailableChoices sm.gameState
        if choiceIndex < 0 ∨ choiceIndex ≥ availableChoices.length then
          { state := sm, error := some (.invalidChoice choiceIndex) }
        else
          match availableChoices.get? choiceIndex.toNat with
          | none => { state := sm, error := some (.invalidChoice choiceIndex) }
          | some choice =>
              let (sm1, changeEvents) :=
                match choice.stateChanges with
                | some changes =>
                    let (sm', ev) := sm.updateGameState changes
                    (sm', [ev])
                | none => (sm, [])
              let nav := navigateToNode sm1 hasScene choice.nextNode
              { nav with
                  events := changeEvents ++ [.choiceMade choice choiceIndex] ++ nav.events }

/-! ## StoryParser validation (src/core/story/StoryParser.ts)

Raw story documents straight out of JSON.parse/YAML.parse, before
validation.  Absent or empty-string fields are both falsy under the
source's truthiness tests; the model keeps them as one none case plus
an explicit emptiness test on present strings. -/

/-- JS truthiness of an optional string field. -/
def truthyS : Option String → Bool
  | none => false
  | some s => s ≠ ""

structure RawChoice where
  nextNode : Option String := none

structure RawSceneChar where
  id : Option String := none
  position : Option String := none
  expression : Option String := none

structure RawAnimation where
  target : Option String := none
  animType : Option String := none

structure RawTextEffects where
  effectType : String

structure RawDialogueOptions where
  textEffects : Option RawTextEffects := none

structure RawMetadata where
  emotion : Option String := none

structure RawNode where
  nodeType : Option String := none
  text : Option String := none
  characterId : Option String := none
  choices : Option (List RawChoice) := none
  condition : Option String := none
  nextNode : Option String := none
  sceneId : Option String := none
  characters : Option (List RawSceneChar) := none
  animations : Option (List RawAnimation) := none
  dialogueOptions : Option RawDialogueOptions := none
  metadata : Option RawMetadata := none

structure RawStory where
  id : Option String := none
  title : Option String := none
  startNode : Option String := none
  nodes : List (String × RawNode) := []

inductive VError where
  | storyNoId
  | storyNoTitle
  | storyNoStartNode
  | storyNoNodes
  | startNodeMissing (startId : String)
  | nodeNoType (nodeId : String)
  | dialogueNoText (nodeId : String)
  | dialogueNoCharacter (nodeId : String)
  | choiceEmpty (nodeId : String)
  | choiceNoNext (nodeId : String)
  | choiceTargetMissing (nodeId target : String)
  | branchNoCondition (nodeId : String)
  | branchNoNext (nodeId : String)
  | sceneNoSceneId (nodeId : String)
  | sceneNoCharacters (nodeId : String)
  | sceneCharNoId (nodeId : String)
  | sceneCharNoPosition (nodeId : String)
  | sceneCharBadPosition (nodeId : String)
  | sceneCharBadExpression (nodeId : String)
  | unknownType (nodeId : String)
  | nextNodeMissing (nodeId target : String)
  | animationNoTarget (nodeId : String)
  | animationNoType (nodeId : String)
  | badTextEffect (nodeId : String)
  | badEmotion (nodeId : String)
  deriving DecidableEq, Repr

/-- Object.values(CharacterEmotion), lowercased. -/
def emotionValues : List String :=
  ["neutral", "happy", "sad", "angry", "surprised", "thoughtful",
   "worried", "excited", "determined", "powerful", "ethereal"]

/-- The valid scene character positions. -/
def validPositions : List String :=
  ["left", "center", "right", "offscreenleft", "offscreenright"]

/-- The valid dialogue text effect types. -/
def validTextEffects : List String :=
  ["wave", "shake", "bounce", "typewriter"]

/-- The choice-loop of validateNode: each choice needs a truthy
nextNode that is a key of the node map. -/
def validateChoiceList (nodeId : String) (allNodes : List (String × RawNode)) :
    List RawChoice → Except VError Unit
  | [] => .ok ()
  | c :: rest =>
      match c.nextNode with
      | none => .error (.choiceNoNext nodeId)
      | some target =>
          if target = "" then
            .error (.choiceNoNext nodeId)
          else if (allNodes.lookup target).isNone then
            .error (.choiceTargetMissing nodeId target)
          else
            validateChoiceList nodeId allNodes rest

/-- The scene-character loop of validateNode. -/
def validateSceneChars (nodeId : String) :
    List RawSceneChar → Except VError Unit
  | [] => .ok ()
  | c :: rest =>
      if ¬truthyS c.id then
        .error (.sceneCharNoId nodeId)
      else if ¬truthyS c.position then
        .error (.sceneCharNoPosition nodeId)
      else if ¬(validPositions.contains ((c.position.getD "").toLower)) then
        .error (.sceneCharBadPosition nodeId)
      else if truthyS c.expression ∧
          ¬(emotionValues.contains ((c.expression.getD "").toLower)) then
        .error (.sceneCharBadExpression nodeId)
      else
        validateSceneChars nodeId rest

/-- The animation loop of validateNode. -/
def validateAnimations (nodeId : String) :
    List RawAnimation → Except VError Unit
  | [] => .ok ()
  | a :: rest =>
      if ¬truthyS a.target then
        .error (.animationNoTarget nodeId)
      else if ¬truthyS a.animType then
        .error (.animationNoType nodeId)
      else
        validateAnimations nodeId rest

/-- The type-dependent switch of validateNode. -/
def validateNodeSwitch (nodeId : String) (node : RawNode)
    (allNodes : List (String × RawNode)) : Except VError Unit :=
  match node.nodeType with
  | none => .error (.nodeNoType nodeId)
  | some ty =>
      if ty = "dialogue" then
        if ¬truthyS node.text then .error (.dialogueNoText nodeId)
        else if ¬truthyS node.characterId then .error (.dialogueNoCharacter nodeId)
        else .ok ()
      else if ty = "choice" then
        match node.choices with
        | none => .error (.choiceEmpty nodeId)
        | some [] => .error (.choiceEmpty nodeId)
        | some cs => validateChoiceList nodeId allNodes cs
      else if ty = "branch" then
        if ¬truthyS node.condition then .error (.branchNoCondition nodeId)
        else if ¬truthyS node.nextNode then .error (.branchNoNext nodeId)
        else .ok ()
      else if ty = "scene" then
        if ¬truthyS node.sceneId then .error (.sceneNoSceneId nodeId)
        else
          match node.characters with
          | none => .error (.sceneNoCharacters nodeId)
          | some chars => validateSceneChars nodeId chars
      else if ty = "end" then .ok ()
      else .error (.unknownType nodeId)

/-- Sequencing of two validation steps: the first thrown error wins. -/
def eseq (a b : Except VError Unit) : Except VError Unit :=
  match a with
  | .error e => .error e
  | .ok _ => b

/-- The generic nextNode reference check of validateNode. -/
def checkNextNode (nodeId : String) (node : RawNode)
    (allNodes : List (String × RawNode)) : Except VError Unit :=
  match node.nextNode with
  | some target =>
      if target ≠ "" ∧ (allNodes.lookup target).isNone then
        .error (.nextNodeMissing nodeId target)
      else .ok ()
  | none => .ok ()

/-- The animation field check of validateNode. -/
def checkAnimationField (nodeId : String) (node : RawNode) : Except VError Unit :=
  match node.animations with
  | some anims => validateAnimations nodeId anims
  | none => .ok ()

/-- The dialogue-options text effect check of validateNode. -/
def checkTextEffects (nodeId : String) (node : RawNode) : Except VError Unit :=
  match node.dialogueOptions with
  | some dOpts =>
      match dOpts.textEffects with
      | some fx =>
          if ¬(validTextEffects.contains fx.effectType) then
            .error (.badTextEffect nodeId)
          else .ok ()
      | none => .ok ()
  | none => .ok ()

/-- The metadata emotion check of validateNode. -/
def checkMetadataEmotion (nodeId : String) (node : RawNode) : Except VError Unit :=
  match node.metadata with
  | some md =>
      if truthyS md.emotion ∧
          ¬(emotionValues.contains ((md.emotion.getD "").toLower)) then
        .error (.badEmotion nodeId)
      else .ok ()
  | none => .ok ()

/-- validateNode: the type check and switch, then the generic nextNode
reference check, the animation checks, the dialogue-options check and
the metadata-emotion check, throwing the first failure. -/
def validateNode (nodeId : String) (node : RawNode)
    (allNodes : List (String × RawNode)) : Except VError Unit :=
  eseq (if ¬truthyS node.nodeType then .error (.nodeNoType nodeId) else .ok ())
    (eseq (validateNodeSwitch nodeId node allNodes)
      (eseq (checkNextNode nodeId node allNodes)
        (eseq (checkAnimationField nodeId node)
          (eseq (checkTextEffects nodeId node)
            (checkMetadataEmotion nodeId node)))))

/-- The Object.entries loop of validateStory. -/
def validateNodeList (allNodes : List (String × RawNode)) :
    List (String × RawNode) → Except VError Unit
  | [] => .ok ()
  | (nodeId, node) :: rest =>
      eseq (validateNode nodeId node allNodes) (validateNodeList allNodes rest)

/-- validateStory: required story fields, at least one node, startNode
present in the node map, then every node validated. -/
def validateStory (data : RawStory) : Except VError Unit :=
  if ¬truthyS data.id then .error .storyNoId
  else if ¬truthyS data.title then .error .storyNoTitle
  else if ¬truthyS data.startNode then .error .storyNoStartNode
  else if data.nodes.length = 0 then .error .storyNoNodes
  else
    match data.startNode with
    | none => .error .storyNoStartNode
    | some startId =>
        if (data.nodes.lookup startId).isNone then
          .error (.startNodeMissing startId)
        else
          validateNodeList data.nodes data.nodes

/-! ### Referential integrity view of validation

refTargets collects the node references the validator checks:
the targets of the choices and the truthy nextNode.  The structural
predicates capture a well-formed story document: every check of the
validator that is not a node-reference check passes.  They follow the
tagged-variant document model, under which the choices list only
appears on choice nodes. -/

/-- The node ids a raw node references. -/
def refTargets (node : RawNode) : List String :=
  (match node.choices with
   | some cs => cs.filterMap (·.nextNode)
   | none => []) ++
  (match node.nextNode with
   | some t => if t = "" then [] else [t]
   | none => [])

/-- Structurally valid scene character declaration. -/
def sceneCharWF (c : RawSceneChar) : Bool :=
  truthyS c.id && truthyS c.position &&
  validPositions.contains ((c.position.getD "").toLower) &&
  (!truthyS c.expression ||
    emotionValues.contains ((c.expression.getD "").toLower))

/-- Structurally valid animation entry. -/
def animationWF (a : RawAnimation) : Bool :=
  truthyS a.target && truthyS a.animType

/-- The type-independent structural checks. -/
def nodeCommonWF (node : RawNode) : Bool :=
  (match node.animations with
   | some l => l.all animationWF
   | none => true) &&
  (match node.dialogueOptions with
   | some d =>
       match d.textEffects with
       | some fx => validTextEffects.contains fx.effectType
       | none => true
   | none => true) &&
  (match node.metadata with
   | some md =>
       !truthyS md.emotion ||
         emotionValues.contains ((md.emotion.getD "").toLower)
   | none => true)

/-- Structurally well-formed raw node: a known type, the type-required
fields present and valid, choices only on choice nodes, and the common
checks; reference resolution is deliberately not part of this. -/
def nodeStructWF (node : RawNode) : Bool :=
  nodeCommonWF node &&
  (match node.nodeType with
   | none => false
   | some ty =>
       if ty = "" then false
       else if ty = "dialogue" then
         truthyS node.text && truthyS node.characterId && node.choices.isNone
       else if ty = "choice" then
         (match node.choices with
          | some (c :: cs) => (c :: cs).all fun ch => truthyS ch.nextNode
          | _ => false)
       else if ty = "branch" then
         truthyS node.condition && truthyS node.nextNode && node.choices.isNone
       else if ty = "scene" then
         truthyS node.sceneId &&
         (match node.characters with
          | some chars => chars.all sceneCharWF
          | none => false) &&
         node.choices.isNone
       else if ty = "end" then node.choices.isNone
       else false)

/-- Structurally well-formed raw story document. -/
def storyStructWF (s : RawStory) : Bool :=
  truthyS s.id && truthyS s.title && truthyS s.startNode &&
  s.nodes.length ≠ 0 &&
  s.nodes.all fun kv => nodeStructWF kv.2

/-! ## Character model (CharacterData.ts)

Character objects carry rendering resources besides their state; the
action generator only reads getState(), so a character is reduced to
its CharacterState here.  The CharacterAnimation enum members are plain
strings at runtime and are modelled as strings. -/

inductive CharacterPosition where
  | left
  | center
  | right
  | offScreenLeft
  | offScreenRight
  deriving DecidableEq, Repr

inductive CharacterEmotion where
  | neutral
  | happy
  | sad
  | angry
  | surprised
  | thoughtful
  | worried
  | excited
  | determined
  | powerful
  | ethereal
  deriving DecidableEq, Repr

structure CharacterState where
  id : String
  position : CharacterPosition
  currentEmotion : CharacterEmotion
  currentAnimation : Option String := none
  isVisible : Bool
  customState : JSVal := .obj []

/-- CharacterAnimation.EMOTE, the runtime string of the enum member. -/
def characterAnimationEmote : String := "emote"

inductive ActionType where
  | ENTER
  | EXIT
  | MOVE
  | CHANGE_EMOTION
  | ANIMATE
  | SPEAK
  deriving DecidableEq, Repr

structure CharacterAction where
  type : ActionType
  characterId : String
  position : Option CharacterPosition := none
  emotion : Option CharacterEmotion := none
  animation : Option String := none
  duration : Option Rat := none
  text : Option String := none
  customParams : Option JSVal := none

/-! ## CharacterActionGenerator

Tracks recent node ids and the current scene id across calls; the
tracking state is passed and returned explicitly.  Math.random is
modelled as an explicit rand argument carrying the value the generator
would draw if it consults the random source (it draws at most once per
generateActionsFromNode call, inside shouldEmoteAfterSpeaking). -/

structure GenState where
  characterStates : List (String × CharacterState) := []
  currentSceneId : Option String := none
  previousNodeIds : List String := []

/-- determineTransitionDuration: fixed per action type (the character
argument is accepted but unused, as in the source). -/
def determineTransitionDuration (_character : CharacterState)
    (actionType : String) : Rat :=
  if actionType = "enter" then mkRat 4 5
  else if actionType = "exit" then mkRat 7 10
  else if actionType = "move" then mkRat 1 2
  else mkRat 1 2

/-- convertPositionString: lowercased position name, center default. -/
def convertPositionString (position : String) : CharacterPosition :=
  if position.toLower = "left" then .left
  else if position.toLower = "center" then .center
  else if position.toLower = "right" then .right
  else if position.toLower = "offscreenleft" then .offScreenLeft
  else if position.toLower = "offscreenright" then .offScreenRight
  else .center

/-- convertExpressionString: undefined for a falsy expression, else the
lowercased emotion name with neutral as the default for names outside
the eight-case switch. -/
def convertExpressionString (expression : Option String) :
    Option CharacterEmotion :=
  match expression with
  | none => none
  | some e =>
      if e = "" then none
      else some (
        if e.toLower = "neutral" then .neutral
        else if e.toLower = "happy" then .happy
        else if e.toLower = "sad" then .sad
        else if e.toLower = "angry" then .angry
        else if e.toLower = "surprised" then .surprised
        else if e.toLower = "thoughtful" then .thoughtful
        else if e.toLower = "worried" then .worried
        else if e.toLower = "excited" then .excited
        else .neutral)

/-- determineEmotion: the current emotion for a falsy mood, else the
fixed many-to-one mood lookup with neutral default. -/
def determineEmotion (mood : Option String) (state : CharacterState) :
    CharacterEmotion :=
  match mood with
  | none => state.currentEmotion
  | some m =>
      if m = "" then state.currentEmotion
      else if ["happy", "joyful", "cheerful"].contains m.toLower then .happy
      else if ["sad", "unhappy", "depressed"].contains m.toLower then .sad
      else if ["angry", "mad", "furious"].contains m.toLower then .angry
      else if ["surprised", "shocked", "astonished"].contains m.toLower then .surprised
      else if ["thoughtful", "contemplative", "pensive"].contains m.toLower then .thoughtful
      else if ["worried", "anxious", "nervous"].contains m.toLower then .worried
      else if ["excited", "enthusiastic", "thrilled"].contains m.toLower then .excited
      else .neutral

/-- emotionNeedsChanging: the mapped target emotion differs from the
current one. -/
def emotionNeedsChanging (mood : String) (state : CharacterState) : Bool :=
  determineEmotion (some mood) state ≠ state.currentEmotion

/-- shouldEmoteAfterSpeaking: punctuation, a strong mood, or a 30
percent random draw. -/
def shouldEmoteAfterSpeaking (text : String) (mood : Option String)
    (rand : Rat) : Bool :=
  if strIncludes text "!" ∨ strIncludes text "?" then true
  else if (match mood with
           | some m => m ≠ "" && ["excited", "angry", "surprised"].contains m.toLower
           | none => false : Bool) then true
  else rand < mkRat 3 10

/-- Count of a character in a string. -/
def charCount (text : String) (c : Char) : Nat :=
  text.toList.count c

/-- determineEmoteIntensity: base 0.5, adjusted by exclamation and
question counts, the ALL-CAPS word ratio and mood, clamped to
[0.1, 1.0]. -/
def determineEmoteIntensity (text : String) (mood : Option String) : Rat :=
  let exclamationCount : Rat := charCount text '!'
  let questionCount : Rat := charCount text '?'
  let words := text.splitOn " "
  let capsWords := words.filter (fun w => w = w.toUpper ∧ w.length > 1)
  let capsFrac : Rat := mkRat capsWords.length words.length
  let intensity : Rat :=
    mkRat 1 2 + exclamationCount * mkRat 1 10 + questionCount * mkRat 1 20 +
      capsFrac * mkRat 1 5
  let intensity :=
    match mood with
    | none => intensity
    | some m =>
        if m = "" then intensity
        else if m.toLower = "excited" ∨ m.toLower = "angry" then intensity + mkRat 1 5
        else if m.toLower = "surprised" then intensity + mkRat 3 20
        else if m.toLower = "sad" ∨ m.toLower = "thoughtful" then intensity - mkRat 1 10
        else intensity
  min (max intensity (mkRat 1 10)) 1

/-- convertAnimationToAction: an ANIMATE action for the target, with
the duration attached only when truthy. -/
def convertAnimationToAction (animation : StoryAnimation) : CharacterAction :=
  { type := .ANIMATE
    characterId := animation.target
    animation := some animation.animType
    customParams := some (animation.parameters.getD (.obj []))
    duration :=
      match animation.duration with
      | some d => if d = 0 then none else some d
      | none => none }

/-- generateCharacterExits: every currently visible character missing
from the declared scene list exits towards the off-screen side selected
by its current position. -/
def generateCharacterExits (sceneCharacters : List SceneCharDecl)
    (characters : List (String × CharacterState)) : List CharacterAction :=
  let sceneCharacterIds := sceneCharacters.map (·.id)
  characters.filterMap fun kv =>
    let characterId := kv.1
    let state := kv.2
    if state.isVisible ∧ ¬(sceneCharacterIds.contains characterId) then
      some { type := .EXIT
             characterId := characterId
             position := some (if state.position = .left
                               then CharacterPosition.offScreenLeft
                               else CharacterPosition.offScreenRight)
             duration := some (determineTransitionDuration state "exit") }
    else none

/-- JS truthiness of the optional expression string. -/
def truthyExpr (expression : Option String) : Bool :=
  match expression with
  | none => false
  | some e => e ≠ ""

/-- generateCharacterEntrances: declared characters enter when not
visible, move when visible at the wrong position, and change emotion
when the declared expression differs from the current one. -/
def generateCharacterEntrances (sceneCharacters : List SceneCharDecl)
    (characters : List (String × CharacterState)) : List CharacterAction :=
  sceneCharacters.flatMap fun sceneChar =>
    match characters.lookup sceneChar.id with
    | none => []
    | some state =>
        let targetPosition := convertPositionString sceneChar.position
        let placement :=
          if ¬state.isVisible then
            [{ type := .ENTER
               characterId := sceneChar.id
               position := some targetPosition
               emotion := some ((convertExpressionString sceneChar.expression).getD
                                  state.currentEmotion)
               duration := some (determineTransitionDuration state "enter")
               : CharacterAction }]
          else if state.position ≠ targetPosition then
            [{ type := .MOVE
               characterId := sceneChar.id
               position := some targetPosition
               duration := some (determineTransitionDuration state "move")
               : CharacterAction }]
          else []
        let emotionChange :=
          if truthyExpr sceneChar.expression ∧
              convertExpressionString sceneChar.expression ≠ some state.currentEmotion then
            [{ type := .CHANGE_EMOTION
               characterId := sceneChar.id
               emotion := some ((convertExpressionString sceneChar.expression).getD
                                  .neutral)
               : CharacterAction }]
          else []
        placement ++ emotionChange

/-- getCharacterState of the generator: a default off-screen state for
an unknown id, else the live state, cached into the tracking map. -/
def genGetCharacterState (characterId : String)
    (characters : List (String × CharacterState)) (gen : GenState) :
    CharacterState × GenState :=
  match characters.lookup characterId with
  | none =>
      ({ id := characterId
         position := .offScreenLeft
         currentEmotion := .neutral
         isVisible := false
         customState := .obj [] }, gen)
  | some state =>
      (state,
       { gen with characterStates := recordSet gen.characterStates characterId state })

/-- The scene-node block of generateActionsFromNode: for a truthy scene
id with a declared character list, exits first, then entrances and
repositioning. -/
def sceneActionsOf (node : StoryNode)
    (characters : List (String × CharacterState)) : List CharacterAction :=
  match node.getSceneId with
  | some sceneId =>
      if sceneId = "" then []
      else
        match node.characters with
        | some sceneCharacters =>
            generateCharacterExits sceneCharacters characters ++
            generateCharacterEntrances sceneCharacters characters
        | none => []
  | none => []

/-- The currentSceneId update performed by the scene-node block. -/
def sceneIdUpdate (node : StoryNode) (gen : GenState) : GenState :=
  match node.getSceneId with
  | some sceneId =>
      if sceneId = "" then gen
      else { gen with currentSceneId := some sceneId }
  | none => gen

/-- The dialogue-node block of generateActionsFromNode: enter when the
speaker is hidden, change emotion when the scripted mood differs,
speak, and optionally emote afterwards. -/
def dialogueActionsOf (node : StoryNode)
    (characters : List (String × CharacterState)) (gen : GenState)
    (rand : Rat) : GenState × List CharacterAction :=
  match node.character with
  | some characterId =>
      if characterId ≠ "" ∧ (characters.lookup characterId).isSome then
        let (state, g) := genGetCharacterState characterId characters gen
        let entering :=
          if ¬state.isVisible then
            [{ type := .ENTER
               characterId := characterId
               position := some CharacterPosition.center
               emotion := some (determineEmotion node.mood state)
               : CharacterAction }]
          else []
        let emotionChange :=
          match node.mood with
          | some m =>
              if m ≠ "" ∧ emotionNeedsChanging m state then
                [{ type := .CHANGE_EMOTION
                   characterId := characterId
                   emotion := some (determineEmotion node.mood state)
                   : CharacterAction }]
              else []
          | none => []
        let speaking :=
          match node.text with
          | some text =>
              if text ≠ "" then
                [{ type := .SPEAK
                   characterId := characterId
                   text := some text
                   emotion := some (determineEmotion node.mood state)
                   : CharacterAction }] ++
                (if shouldEmoteAfterSpeaking text node.mood rand then
                   [{ type := .ANIMATE
                      characterId := characterId
                      animation := some characterAnimationEmote
                      customParams := some (.obj
                        [("intensity", .num (determineEmoteIntensity text node.mood))])
                      : CharacterAction }]
                 else [])
              else []
          | none => []
        (g, entering ++ emotionChange ++ speaking)
      else (gen, [])
  | none => (gen, [])

/-- The explicit node animations converted to ANIMATE actions, skipping
targets that are not registered characters. -/
def animationActionsOf (node : StoryNode)
    (characters : List (String × CharacterState)) : List CharacterAction :=
  match node.animations with
  | some animations =>
      animations.filterMap fun animation =>
        if animation.target ≠ "" ∧ (characters.lookup animation.target).isSome then
          some (convertAnimationToAction animation)
        else none
  | none => []

/-- generateActionsFromNode: node history update, scene exit/entrance
derivation, dialogue enter/emotion/speak/emote derivation, and the
node's explicit animations, in source order. -/
def generateActionsFromNode (node : StoryNode)
    (characters : List (String × CharacterState)) (gen : GenState)
    (rand : Rat) : GenState × List CharacterAction :=
  let pushed := node.id :: gen.previousNodeIds
  let gen1 : GenState :=
    { gen with previousNodeIds := if pushed.length > 5 then pushed.dropLast else pushed }
  let (gen2, sceneActions) :=
    if node.type = .scene then
      (sceneIdUpdate node gen1, sceneActionsOf node characters)
    else (gen1, [])
  let (gen3, dialogueActions) :=
    if node.type = .dialogue then
      dialogueActionsOf node characters gen2 rand
    else (gen2, [])
  (gen3, sceneActions ++ dialogueActions ++ animationActionsOf node characters)

/-! ## CharacterStateManager

Stored character states are JS objects at runtime and are modelled as
JS values, so that the dotted-path traversal of
checkCharacterCondition is the generic property walk it is in the
source.  The mirror copy kept in the global StateManager is never read
back by the verified operations and is omitted. -/

structure CSMState where
  characterStates : List (String × JSVal) := []

/-- getCharacterState: Map lookup. -/
def getCharacterState (csm : CSMState) (characterId : String) : Option JSVal :=
  csm.characterStates.lookup characterId

/-- The spread copy {...state}: a fresh object with the same own
fields, which is the identity at the value level. -/
def shallowCopy : JSVal → JSVal
  | .obj fields => .obj fields
  | v => v

/-- exportForSave: a record of shallow copies of every tracked state,
in Map iteration order. -/
def exportForSave (csm : CSMState) : List (String × JSVal) :=
  csm.characterStates.map fun kv => (kv.1, shallowCopy kv.2)

/-- loadFromSaveData: clear the Map, then set every entry of the
record in order. -/
def loadFromSaveData (saved : List (String × JSVal)) : CSMState :=
  { characterStates := saved.foldl (fun acc kv => recordSet acc kv.1 kv.2) [] }

inductive CondOp where
  | eq
  | neq
  | gt
  | ge
  | lt
  | le
  | contains
  deriving DecidableEq, Repr

/-- The property-path loop of checkCharacterCondition: before each
segment the current value is tested for null/undefined (returning false
from the whole check, the none result here); property access on a
null/undefined value would throw, which the guard prevents. -/
def walkPath : JSVal → List String → Except Unit (Option JSVal)
  | v, [] => .ok (some v)
  | v, part :: rest =>
      if v.isNullish then .ok none
      else do
        let v' ← v.index part
        walkPath v' rest

/-- The operator switch of checkCharacterCondition.  The includes
test coerces its argument to a string in JS; the engine only compares
string values there, which is the case modelled. -/
def applyCondOp (op : CondOp) (currentValue value : JSVal) : Bool :=
  match op with
  | .eq => JSVal.strictEq currentValue value
  | .neq => ¬JSVal.strictEq currentValue value
  | .gt => JSVal.jsLt value currentValue
  | .ge => JSVal.jsLe value currentValue
  | .lt => JSVal.jsLt currentValue value
  | .le => JSVal.jsLe currentValue value
  | .contains =>
      match currentValue with
      | .arr elems => elems.any fun x => JSVal.strictEq x value
      | .str s =>
          match value with
          | .str t => strIncludes s t
          | _ => false
      | _ => false

/-- checkCharacterCondition: false for an unknown character id, else
walk the dotted property path (false on a null/undefined intermediate
value) and compare the resolved value. -/
def checkCharacterCondition (csm : CSMState) (characterId property : String)
    (op : CondOp) (value : JSVal) : Except Unit Bool :=
  match csm.characterStates.lookup characterId with
  | none => .ok false
  | some characterState =>
      match walkPath characterState (jsSplitDot property) with
      | .error e => .error e
      | .ok none => .ok false
      | .ok (some currentValue) => .ok (applyCondOp op currentValue value)

/-! ## Specification-side transition sequence

specTransition is written from the specification text of
navigateToNode, steps (a) through (f): (a) run onExit of the current
node and emit the exit notification, (b) set the current node to the
target, (c) append the target id to history, (d) apply the target's
unconditional stateChanges, (e) run onEnter, (f) emit the enter
notification with the new and previous node, after the state mutation
is complete.  It exists to be compared against navigateToNode. -/
def specTransition (sm : SMState) (nodeId : String) (target : StoryNode) :
    SMState × List SMEvent :=
  let gsA :=
    match sm.currentNode with
    | some cn => cn.executeOnExit sm.gameState
    | none => sm.gameState
  let exitEvents :=
    match sm.currentNode with
    | some cn => [SMEvent.nodeExit cn]
    | none => []
  let gsD :=
    match target.stateChanges with
    | some changes => applyChanges gsA changes
    | none => gsA
  let changeEvents :=
    match target.stateChanges with
    | some changes => [SMEvent.stateChanged (applyChanges gsA changes) gsA changes]
    | none => []
  ({ nodes := sm.nodes
     currentNode := some target
     gameState := target.executeOnEnter gsD
     history := sm.history ++ [nodeId] },
   exitEvents ++ changeEvents ++ [SMEvent.nodeEnter target sm.currentNode])

/-! ## Concrete instances used by witnesses and counterexamples -/

/-- A condition script whose evaluation throws. -/
def condErr : CondExpr := fun _ => .error "bad condition"

/-- A condition script evaluating to false. -/
def condFalse : CondExpr := fun _ => .ok false

def nodeCondErr : StoryNode :=
  { id := "d1", type := .dialogue, condition := some condErr }

def choiceYes : StoryChoice :=
  { id := "yes", text := "Yes", nextNode := "end1" }

def choiceNo : StoryChoice :=
  { id := "no", text := "No", nextNode := "end2" }

def choiceGated : StoryChoice :=
  { id := "gated", text := "Gated", nextNode := "end1", condition := some condFalse }

def nodeChoice : StoryNode :=
  { id := "choice1", type := .choice
    choices := some [choiceYes, choiceNo, choiceGated] }

def nodeEnd1 : StoryNode := { id := "end1", type := .«end» }

def nodeEnd2 : StoryNode := { id := "end2", type := .«end» }

def nodeStart : StoryNode :=
  { id := "start", type := .dialogue, text := some "hi"
    character := some "a", nextNode := some "choice1" }

def smDemo : SMState :=
  { nodes := [("start", nodeStart), ("choice1", nodeChoice),
              ("end1", nodeEnd1), ("end2", nodeEnd2)]
    currentNode := some nodeStart
    gameState := [("flag", .bool true)]
    history := ["start"] }

def smChoice : SMState := { smDemo with currentNode := some nodeChoice }

def noScenes : String → Bool := fun _ => false

def charHiddenA : CharacterState :=
  { id := "a", position := .offScreenLeft, currentEmotion := .neutral
    isVisible := false }

def charVisibleRightB : CharacterState :=
  { id := "b", position := .right, currentEmotion := .neutral
    isVisible := true }

def charVisibleCenterA : CharacterState :=
  { id := "a", position := .center, currentEmotion := .neutral
    isVisible := true }

/-- Scene node declaring character a at the left. -/
def sceneNodeC : StoryNode :=
  { id := "scene1", type := .scene, sceneId := some "s1"
    characters := some [{ id := "a", position := "left" }] }

def charsAB : List (String × CharacterState) :=
  [("a", charHiddenA), ("b", charVisibleRightB)]

/-- Dialogue node whose speaker is visible and whose text carries no
exclamation or question mark, so that the emote heuristic falls through
to the random draw. -/
def dlgNode : StoryNode :=
  { id := "d2", type := .dialogue, character := some "a", text := some "hello" }

def charsA : List (String × CharacterState) := [("a", charVisibleCenterA)]

def csmDemo : CSMState :=
  { characterStates :=
      [("a", .obj [("id", .str "a"), ("mood", .str "happy")]),
       ("b", .obj [("id", .str "b"), ("mood", .str "sad")])] }

def rawDialogueN1 : RawNode :=
  { nodeType := some "dialogue", text := some "hi"
    characterId := some "a", nextNode := some "n2" }

def rawEndN2 : RawNode := { nodeType := some "end" }

def rawDemo : RawStory :=
  { id := some "story1", title := some "A Story", startNode := some "n1"
    nodes := [("n1", rawDialogueN1), ("n2", rawEndN2)] }

/-- The same story with the dialogue node pointing at a missing id. -/
def rawDangling : RawStory :=
  { rawDemo with
      nodes := [("n1", { rawDialogueN1 with nextNode := some "ghost" }),
                ("n2", rawEndN2)] }

/-! ## Theorems -/

/-- Characterization of the availability filter predicate. -/
theorem choicePasses_iff (gs : List (String × JSVal)) (c : StoryChoice) :
    StoryNode.choicePasses gs c = true ↔
      (c.condition = none ∨ ∃ f, c.condition = some f ∧ f gs = .ok true) := by
  unfold StoryNode.choicePasses
  cases hcc : c.condition with
  | none => simp
  | some f =>
      cases hf : f gs with
      | ok b =>
          simp only [hf]
          constructor
          · intro hb
            subst hb
            exact Or.inr ⟨f, rfl, hf⟩
          · rintro (h | ⟨g, hg, hval⟩)
            · exact absurd h (by simp)
            · injection hg with h2
              subst h2
              rw [hf] at hval
              exact Except.ok.inj hval
      | error e =>
          simp only [hf]
          constructor
          · intro hb
            exact absurd hb (by simp)
          · rintro (h | ⟨g, hg, hval⟩)
            · exact absurd h (by simp)
            · injection hg with h2
              subst h2
              rw [hf] at hval
              exact absurd hval (by simp)

/-- C4: for every node and game state, evaluateCondition returns a
boolean and never propagates an exception: no condition gives true,
and a condition whose evaluation throws gives false (fail-closed). -/
theorem evaluateCondition_fail_closed (n : StoryNode)
    (gs : List (String × JSVal)) :
    (n.condition = none → n.evaluateCondition gs = true) ∧
    (∀ c e, n.condition = some c → c gs = .error e →
       n.evaluateCondition gs = false) := by
  refine ⟨fun h => ?_, fun c e hc he => ?_⟩
  · simp [StoryNode.evaluateCondition, h]
  · simp [StoryNode.evaluateCondition, hc, he]

/-- Witness for C4: a node whose condition script throws evaluates to
false, with no exception escaping. -/
theorem evaluateCondition_fail_closed_witness :
    nodeCondErr.evaluateCondition [] = false :=
  (evaluateCondition_fail_closed nodeCondErr []).2 condErr "bad condition" rfl rfl

/-- C5: getAvailableChoices returns exactly the declared choices whose
condition is absent or evaluates to true (false or erroring conditions
are excluded), in declaration order. -/
theorem getAvailableChoices_spec (n : StoryNode) (gs : List (String × JSVal)) :
    (∀ c, c ∈ n.getAvailableChoices gs ↔
       (c ∈ n.choices.getD [] ∧
        (c.condition = none ∨ ∃ f, c.condition = some f ∧ f gs = .ok true))) ∧
    (n.getAvailableChoices gs).Sublist (n.choices.getD []) := by
  unfold StoryNode.getAvailableChoices
  cases hch : n.choices with
  | none => simp
  | some cs =>
      constructor
      · intro c
        simp [List.mem_filter, choicePasses_iff]
      · simp only [Option.getD_some]
        exact List.filter_sublist cs

/-- Witness for C5 at a concrete choice node: the gated choice is
filtered out and the declaration order of the rest is kept. -/
theorem getAvailableChoices_spec_witness :
    nodeChoice.getAvailableChoices [] = [choiceYes, choiceNo] ∧
    (nodeChoice.getAvailableChoices []).Sublist (nodeChoice.choices.getD []) :=
  ⟨rfl, (getAvailableChoices_spec nodeChoice []).2⟩

/-- Property access on a non-nullish value never throws. -/
theorem index_ok (v : JSVal) (p : String) (h : v.isNullish = false) :
    ∃ w, v.index p = .ok w := by
  cases v with
  | undefined => simp [JSVal.isNullish] at h
  | jnull => simp [JSVal.isNullish] at h
  | bool b => exact ⟨.undefined, rfl⟩
  | num q => exact ⟨.undefined, rfl⟩
  | str s => exact ⟨.undefined, rfl⟩
  | arr xs => exact ⟨.undefined, rfl⟩
  | obj fields =>
      cases hl : fields.lookup p with
      | none => exact ⟨.undefined, by simp [JSVal.index, hl]⟩
      | some w => exact ⟨w, by simp [JSVal.index, hl]⟩

/-- The guarded property-path walk never throws. -/
theorem walkPath_ok (parts : List String) (v : JSVal) :
    ∃ r, walkPath v parts = .ok r := by
  induction parts generalizing v with
  | nil => exact ⟨some v, rfl⟩
  | cons p ps ih =>
      unfold walkPath
      by_cases h : v.isNullish = true
      · exact ⟨none, by simp [h]⟩
      · rw [Bool.not_eq_true] at h
        obtain ⟨w, hw⟩ := index_ok v p h
        obtain ⟨r, hr⟩ := ih w
        refine ⟨r, ?_⟩
        rw [h]
        simp only [Bool.false_eq_true, if_false]
        rw [hw]
        exact hr

/-- C10 (amended): checkCharacterCondition never throws; it returns
false for an unregistered character id, and false whenever the guarded
walk short-circuits on a null/undefined value at a non-final path
segment.  (When the final segment itself resolves to undefined the
comparison is still performed, see the counterexample.) -/
theorem checkCharacterCondition_safe (csm : CSMState)
    (characterId property : String) (op : CondOp) (value : JSVal) :
    (∃ b, checkCharacterCondition csm characterId property op value = .ok b) ∧
    (csm.characterStates.lookup characterId = none →
       checkCharacterCondition csm characterId property op value = .ok false) ∧
    (∀ st, csm.characterStates.lookup characterId = some st →
       walkPath st (jsSplitDot property) = .ok none →
       checkCharacterCondition csm characterId property op value = .ok false) := by
  refine ⟨?_, fun h => ?_, fun st hst hwalk => ?_⟩
  · cases hl : csm.characterStates.lookup characterId with
    | none => exact ⟨false, by simp only [checkCharacterCondition, hl]⟩
    | some st =>
        obtain ⟨r, hr⟩ := walkPath_ok (jsSplitDot property) st
        cases r with
        | none =>
            exact ⟨false, by simp only [checkCharacterCondition, hl, hr]⟩
        | some currentValue =>
            exact ⟨applyCondOp op currentValue value,
              by simp only [checkCharacterCondition, hl, hr]⟩
  · simp only [checkCharacterCondition, h]
  · simp only [checkCharacterCondition, hst, hwalk]

/-- Witness for C10 (amended): a lookup of an unregistered character id
comes back false rather than throwing. -/
theorem checkCharacterCondition_safe_witness :
    checkCharacterCondition csmDemo "ghost" "mood" .eq (.str "happy") =
      .ok false :=
  (checkCharacterCondition_safe csmDemo "ghost" "mood" .eq (.str "happy")).2.1 rfl

/-- Counterexample for C10 as stated: for the registered character a,
the path "missing" resolves its (final) segment to undefined, yet the
comparison with operator != still runs and returns true, not false. -/
theorem checkCharacterCondition_final_undefined_counterexample :
    walkPath (JSVal.obj [("id", .str "a"), ("mood", .str "happy")])
        (jsSplitDot "missing") = .ok (some .undefined) ∧
    checkCharacterCondition csmDemo "a" "missing" .neq (.num 5) = .ok true :=
  ⟨rfl, rfl⟩

/-- Lookup distributes over append when the key is absent up front. -/
theorem lookup_append_none {α : Type} (acc l : List (String × α)) (k : String)
    (h : acc.lookup k = none) : (acc ++ l).lookup k = l.lookup k := by
  induction acc with
  | nil => simp
  | cons hd tl ih =>
      obtain ⟨k', v'⟩ := hd
      rw [List.lookup] at h
      rw [List.cons_append, List.lookup]
      cases hbk : (k == k') with
      | false =>
          simp only [hbk] at h ⊢
          exact ih h
      | true =>
          simp only [hbk] at h
          exact absurd h (by simp)

/-- Setting an absent key appends the binding. -/
theorem recordSet_append {α : Type} (acc : List (String × α)) (k : String)
    (v : α) (h : acc.lookup k = none) : recordSet acc k v = acc ++ [(k, v)] := by
  induction acc with
  | nil => rfl
  | cons hd tl ih =>
      obtain ⟨k', v'⟩ := hd
      rw [recordSet]
      rw [List.lookup] at h
      cases hbk : (k == k') with
      | false =>
          simp only [hbk] at h
          have hk : k' ≠ k := Ne.symm (ne_of_beq_false hbk)
          rw [if_neg hk, ih h, List.cons_append]
      | true =>
          simp only [hbk] at h
          exact absurd h (by simp)

/-- Folding Map.set over pairwise-distinct keys starting from a map
with none of them appends the pairs verbatim. -/
theorem foldl_recordSet (m : List (String × JSVal)) :
    ∀ acc : List (String × JSVal),
      (∀ k ∈ m.map Prod.fst, acc.lookup k = none) →
      (m.map Prod.fst).Nodup →
      m.foldl (fun a kv => recordSet a kv.1 kv.2) acc = acc ++ m := by
  induction m with
  | nil =>
      intro acc _ _
      simp
  | cons kv tl ih =>
      intro acc hdisj hnodup
      obtain ⟨k, v⟩ := kv
      simp only [List.map_cons, List.nodup_cons] at hnodup
      simp only [List.foldl_cons]
      rw [recordSet_append acc k v (hdisj k (by simp))]
      rw [ih (acc ++ [(k, v)]) ?_ hnodup.2]
      · simp
      · intro k2 hk2
        have hk2acc : acc.lookup k2 = none := hdisj k2 (by simp [hk2])
        have hkk2 : k ≠ k2 := fun he => hnodup.1 (he ▸ hk2)
        rw [lookup_append_none _ _ _ hk2acc]
        have hb : (k2 == k) = false := beq_eq_false_iff_ne.mpr (Ne.symm hkk2)
        simp [List.lookup, hb]

theorem shallowCopy_id (v : JSVal) : shallowCopy v = v := by
  cases v <;> rfl

/-- Export keeps the entries verbatim at the value level. -/
theorem map_copy_id (l : List (String × JSVal)) :
    l.map (fun kv => (kv.1, shallowCopy kv.2)) = l := by
  induction l with
  | nil => rfl
  | cons hd tl ih =>
      obtain ⟨a, b⟩ := hd
      simp [shallowCopy_id, ih]

/-- C6: exportForSave followed by loadFromSaveData on a fresh manager
yields the same getCharacterState result for every previously-known
character id (the key set of a Map has no duplicates). -/
theorem export_load_roundtrip (csm : CSMState)
    (hnodup : (csm.characterStates.map Prod.fst).Nodup)
    (characterId : String) (st : JSVal)
    (hknown : getCharacterState csm characterId = some st) :
    getCharacterState (loadFromSaveData (exportForSave csm)) characterId =
      some st := by
  have hload : (loadFromSaveData (exportForSave csm)).characterStates =
      csm.characterStates := by
    unfold loadFromSaveData exportForSave
    rw [map_copy_id]
    rw [foldl_recordSet csm.characterStates [] (by simp) hnodup]
    simp
  unfold getCharacterState at hknown ⊢
  rw [hload]
  exact hknown

/-- Witness for C6 on a two-character manager. -/
theorem export_load_roundtrip_witness :
    getCharacterState (loadFromSaveData (exportForSave csmDemo)) "a" =
      some (.obj [("id", .str "a"), ("mood", .str "happy")]) :=
  export_load_roundtrip csmDemo (by simp [csmDemo]) "a"
    (.obj [("id", .str "a"), ("mood", .str "happy")]) rfl

/-- C3: makeChoice on a current choice node with an out-of-range index
(negative or at least the number of available choices) fails with the
invalid-choice error and leaves the whole manager state, history and
game state included, exactly as it was. -/
theorem makeChoice_out_of_range (sm : SMState) (hasScene : String → Bool)
    (cn : StoryNode) (choiceIndex : Int)
    (hcur : sm.currentNode = some cn)
    (hty : cn.type = .choice)
    (hrange : choiceIndex < 0 ∨
      choiceIndex ≥ ((cn.getAvailableChoices sm.gameState).length : Int)) :
    makeChoice sm hasScene choiceIndex =
      { state := sm, error := some (.invalidChoice choiceIndex)
        events := [], pending := none } := by
  simp only [makeChoice, hcur]
  rw [if_neg (by simp [hty]), if_pos hrange]

/-- Witness for C3: makeChoice 5 on a choice node with two available
choices fails with the invalid-choice error, state untouched. -/
theorem makeChoice_out_of_range_witness :
    makeChoice smChoice noScenes 5 =
      { state := smChoice, error := some (.invalidChoice 5)
        events := [], pending := none } :=
  makeChoice_out_of_range smChoice noScenes nodeChoice 5 rfl rfl
    (Or.inr (by
      rw [show (nodeChoice.getAvailableChoices smChoice.gameState).length = 2
            from rfl]
      decide))

/-- C1: navigateToNode on a known node id succeeds and performs exactly
the specified sequence: onExit plus exit notification for the previous
node, current node set, history append, unconditional stateChanges
applied, onEnter run, and finally the enter notification with the new
and previous node emitted last, strictly after the state mutation. -/
theorem navigateToNode_sequence (sm : SMState) (hasScene : String → Bool)
    (nodeId : String) (target : StoryNode)
    (hfound : sm.nodes.lookup nodeId = some target) :
    (navigateToNode sm hasScene nodeId).error = none ∧
    (navigateToNode sm hasScene nodeId).state =
      (specTransition sm nodeId target).1 ∧
    (navigateToNode sm hasScene nodeId).events =
      (specTransition sm nodeId target).2 ∧
    (navigateToNode sm hasScene nodeId).events.getLast? =
      some (.nodeEnter target sm.currentNode) := by
  cases hcn : sm.currentNode with
  | none =>
      cases hsc : target.stateChanges with
      | none =>
          simp [navigateToNode, specTransition, SMState.updateGameState,
            hfound, hcn, hsc]
      | some changes =>
          simp [navigateToNode, specTransition, SMState.updateGameState,
            hfound, hcn, hsc]
  | some cn =>
      cases hsc : target.stateChanges with
      | none =>
          simp [navigateToNode, specTransition, SMState.updateGameState,
            hfound, hcn, hsc]
      | some changes =>
          simp [navigateToNode, specTransition, SMState.updateGameState,
            hfound, hcn, hsc]

/-- Witness for C1: navigating the demo manager from the start node to
the choice node. -/
theorem navigateToNode_sequence_witness :
    (navigateToNode smDemo noScenes "choice1").error = none ∧
    (navigateToNode smDemo noScenes "choice1").state =
      (specTransition smDemo "choice1" nodeChoice).1 ∧
    (navigateToNode smDemo noScenes "choice1").events =
      (specTransition smDemo "choice1" nodeChoice).2 ∧
    (navigateToNode smDemo noScenes "choice1").events.getLast? =
      some (.nodeEnter nodeChoice smDemo.currentNode) :=
  navigateToNode_sequence smDemo noScenes "choice1" nodeChoice rfl

/-- Every action generated by the exit pass is an EXIT. -/
theorem generateCharacterExits_types (sceneCharacters : List SceneCharDecl)
    (characters : List (String × CharacterState)) :
    ∀ a ∈ generateCharacterExits sceneCharacters characters,
      a.type = .EXIT := by
  intro a ha
  simp only [generateCharacterExits, List.mem_filterMap] at ha
  obtain ⟨kv, _, hf⟩ := ha
  split at hf
  · cases hf
    rfl
  · exact absurd hf (by simp)

/-- Every action generated by the entrance pass is an ENTER, MOVE or
CHANGE_EMOTION. -/
theorem generateCharacterEntrances_types (sceneCharacters : List SceneCharDecl)
    (characters : List (String × CharacterState)) :
    ∀ a ∈ generateCharacterEntrances sceneCharacters characters,
      a.type = .ENTER ∨ a.type = .MOVE ∨ a.type = .CHANGE_EMOTION := by
  intro a ha
  simp only [generateCharacterEntrances, List.mem_flatMap] at ha
  obtain ⟨sceneChar, _, ha⟩ := ha
  cases hl : characters.lookup sceneChar.id with
  | none =>
      rw [hl] at ha
      exact absurd ha (by simp)
  | some state =>
      rw [hl] at ha
      simp only [List.mem_append] at ha
      rcases ha with ha | ha
      · split at ha
        · simp only [List.mem_singleton] at ha
          subst ha
          exact Or.inl rfl
        · split at ha
          · simp only [List.mem_singleton] at ha
            subst ha
            exact Or.inr (Or.inl rfl)
          · exact absurd ha (by simp)
      · split at ha
        · simp only [List.mem_singleton] at ha
          subst ha
          exact Or.inr (Or.inr rfl)
        · exact absurd ha (by simp)

/-- Every action derived from the node's explicit animations is an
ANIMATE. -/
theorem animationActionsOf_types (node : StoryNode)
    (characters : List (String × CharacterState)) :
    ∀ a ∈ animationActionsOf node characters, a.type = .ANIMATE := by
  intro a ha
  unfold animationActionsOf at ha
  cases han : node.animations with
  | none =>
      rw [han] at ha
      exact absurd ha (by simp)
  | some animations =>
      rw [han] at ha
      simp only [List.mem_filterMap] at ha
      obtain ⟨anim, _, hf⟩ := ha
      split at hf
      · cases hf
        rfl
      · exact absurd hf (by simp)

/-- Index ordering over a split list: when the first block contains no
ENTER/MOVE and the second no EXIT, every EXIT index precedes every
ENTER/MOVE index. -/
theorem split_index_lt (l xs ys : List CharacterAction)
    (hl : l = xs ++ ys)
    (hxs : ∀ a ∈ xs, ¬(a.type = .ENTER ∨ a.type = .MOVE))
    (hys : ∀ a ∈ ys, a.type ≠ .EXIT)
    (i j : Nat) (hi : i < l.length) (hj : j < l.length)
    (hP : l[i].type = .EXIT)
    (hQ : l[j].type = .ENTER ∨ l[j].type = .MOVE) : i < j := by
  subst hl
  have hilt : i < xs.length := by
    by_contra hle
    push_neg at hle
    have hmem : (xs ++ ys)[i] ∈ ys := by
      rw [List.getElem_append_right hle]
      exact List.getElem_mem _
    exact hys _ hmem hP
  have hjge : xs.length ≤ j := by
    by_contra hlt
    push_neg at hlt
    have hmem : (xs ++ ys)[j] ∈ xs := by
      rw [List.getElem_append_left hlt]
      exact List.getElem_mem _
    exact hxs _ hmem hQ
  omega

/-- The generated action list of a scene node is the scene block
followed by the animation block. -/
theorem generateActions_scene_shape (node : StoryNode)
    (characters : List (String × CharacterState)) (gen : GenState)
    (rand : Rat) (hscene : node.type = .scene) :
    (generateActionsFromNode node characters gen rand).2 =
      sceneActionsOf node characters ++ animationActionsOf node characters := by
  simp [generateActionsFromNode, hscene]

/-- C7: on a scene node with a declared character list, every EXIT in
the generated action sequence comes strictly before every ENTER and
every MOVE. -/
theorem scene_exits_before_enters (node : StoryNode)
    (characters : List (String × CharacterState))
    (sceneCharacters : List SceneCharDecl) (gen : GenState) (rand : Rat)
    (hscene : node.type = .scene)
    (hdecl : node.characters = some sceneCharacters)
    (i j : Nat)
    (hi : i < ((generateActionsFromNode node characters gen rand).2).length)
    (hj : j < ((generateActionsFromNode node characters gen rand).2).length)
    (hexit : ((generateActionsFromNode node characters gen rand).2)[i].type =
      .EXIT)
    (henter : ((generateActionsFromNode node characters gen rand).2)[j].type =
        .ENTER ∨
      ((generateActionsFromNode node characters gen rand).2)[j].type = .MOVE) :
    i < j := by
  have hshape := generateActions_scene_shape node characters gen rand hscene
  have hanims := animationActionsOf_types node characters
  have degenerate :
      sceneActionsOf node characters = [] → i < j := by
    intro hempty
    refine split_index_lt _ []
      ((generateActionsFromNode node characters gen rand).2)
      (List.nil_append _).symm ?_ ?_ i j hi hj hexit henter
    · intro a ha
      exact absurd ha (by simp)
    · intro a ha
      rw [hshape, hempty, List.nil_append] at ha
      rw [hanims a ha]
      decide
  cases hsid : node.getSceneId with
  | none =>
      exact degenerate (by simp only [sceneActionsOf, hsid])
  | some sceneId =>
      by_cases hne : sceneId = ""
      · exact degenerate (by simp only [sceneActionsOf, hsid, if_pos hne])
      · refine split_index_lt _
          (generateCharacterExits sceneCharacters characters)
          (generateCharacterEntrances sceneCharacters characters ++
            animationActionsOf node characters) ?_ ?_ ?_ i j hi hj hexit henter
        · rw [hshape]
          simp only [sceneActionsOf, hsid, if_neg hne, hdecl,
            List.append_assoc]
        · intro a ha
          rw [generateCharacterExits_types sceneCharacters characters a ha]
          decide
        · intro a ha
          rcases List.mem_append.mp ha with ha | ha
          · rcases generateCharacterEntrances_types sceneCharacters characters
              a ha with h | h | h <;> rw [h] <;> decide
          · rw [hanims a ha]
            decide

/-- Witness for C7: in the generated sequence for the demo scene the
EXIT of b (index 0) precedes the ENTER of a (index 1). -/
theorem scene_exits_before_enters_witness :
    ((generateActionsFromNode sceneNodeC charsAB {} 0).2).length = 2 ∧
      (0 : Nat) < 1 :=
  ⟨rfl,
    scene_exits_before_enters sceneNodeC charsAB
      [{ id := "a", position := "left" }] {} 0 rfl rfl 0 1
      (by decide) (by decide) rfl (Or.inl rfl)⟩

/-- C8 (amended): on a scene node, a visible character absent from the
declared list receives an EXIT action whose direction is the off-screen
side of its own current side: off-screen left when it stands on the
left, off-screen right otherwise. -/
theorem exit_direction_same_side (node : StoryNode)
    (characters : List (String × CharacterState))
    (sceneCharacters : List SceneCharDecl) (gen : GenState) (rand : Rat)
    (sceneId characterId : String) (state : CharacterState)
    (hscene : node.type = .scene)
    (hsid : node.getSceneId = some sceneId) (hne : sceneId ≠ "")
    (hdecl : node.characters = some sceneCharacters)
    (hmem : (characterId, state) ∈ characters)
    (hvis : state.isVisible = true)
    (habsent : (sceneCharacters.map (·.id)).contains characterId = false) :
    ({ type := .EXIT
       characterId := characterId
       position := some (if state.position = .left
                         then CharacterPosition.offScreenLeft
                         else CharacterPosition.offScreenRight)
       duration := some (determineTransitionDuration state "exit")
       : CharacterAction }) ∈
      (generateActionsFromNode node characters gen rand).2 := by
  rw [generateActions_scene_shape node characters gen rand hscene]
  refine List.mem_append_left _ ?_
  simp only [sceneActionsOf, hsid, if_neg hne, hdecl]
  refine List.mem_append_left _ ?_
  refine List.mem_filterMap.mpr ⟨(characterId, state), hmem, ?_⟩
  rw [if_pos]
  constructor
  · exact hvis
  · simpa using habsent

/-- Witness for C8 (amended): character b, visible on the right and not
declared in the demo scene, exits off-screen right. -/
theorem exit_direction_same_side_witness :
    ({ type := .EXIT
       characterId := "b"
       position := some (if charVisibleRightB.position = .left
                         then CharacterPosition.offScreenLeft
                         else CharacterPosition.offScreenRight)
       duration := some (determineTransitionDuration charVisibleRightB "exit")
       : CharacterAction }) ∈
      (generateActionsFromNode sceneNodeC charsAB {} 0).2 :=
  exit_direction_same_side sceneNodeC charsAB
    [{ id := "a", position := "left" }] {} 0 "s1" "b" charVisibleRightB
    rfl rfl (by decide) rfl
    (List.mem_cons_of_mem _ (List.mem_cons_self _ _)) rfl rfl

/-- Counterexample for C8 as stated: character b is visible at the
right while the scene declares only a; the claim requires the EXIT of b
to go to the opposite side, off-screen left, but the generated EXIT
goes off-screen right. -/
theorem exit_direction_counterexample :
    ((generateActionsFromNode sceneNodeC charsAB {} 0).2.filter
        (fun a => a.type = ActionType.EXIT)).map
        (fun a => (a.characterId, a.position)) =
      [("b", some CharacterPosition.offScreenRight)] ∧
    (some CharacterPosition.offScreenRight ≠
      some CharacterPosition.offScreenLeft) :=
  ⟨rfl, by decide⟩

/-- C9 (amended): for every non-dialogue node the generated action
sequence and tracking state are independent of the pseudo-random
source; only the dialogue emote heuristic consults Math.random. -/
theorem generateActions_deterministic_nondialogue (node : StoryNode)
    (characters : List (String × CharacterState)) (gen : GenState)
    (r1 r2 : Rat) (h : node.type ≠ .dialogue) :
    generateActionsFromNode node characters gen r1 =
      generateActionsFromNode node characters gen r2 := by
  simp [generateActionsFromNode, h]

/-- Witness for C9 (amended) on the demo scene node. -/
theorem generateActions_deterministic_nondialogue_witness :
    generateActionsFromNode sceneNodeC charsAB {} 0 =
      generateActionsFromNode sceneNodeC charsAB {} 1 :=
  generateActions_deterministic_nondialogue sceneNodeC charsAB {} 0 1
    (by decide)

/-- Counterexample for C9 as stated: the same dialogue node, the same
live character snapshot and the same generator state yield different
action sequences under two different Math.random draws (the 30 percent
emote heuristic), so the derivation is not deterministic. -/
theorem generateActions_random_counterexample :
    (generateActionsFromNode dlgNode charsA {} 0).2 ≠
      (generateActionsFromNode dlgNode charsA {} (mkRat 1 2)).2 := by
  intro h
  have hlen := congrArg List.length h
  rw [show ((generateActionsFromNode dlgNode charsA {} 0).2).length = 2
        from rfl,
      show ((generateActionsFromNode dlgNode charsA {}
        (mkRat 1 2)).2).length = 1 from rfl] at hlen
  exact absurd hlen (by decide)

/-! ### Claim C2: validation accepts exactly the referentially intact
stories -/

theorem eseq_ok_iff (a b : Except VError Unit) :
    eseq a b = .ok () ↔ a = .ok () ∧ b = .ok () := by
  cases a with
  | ok u =>
      cases u
      simp [eseq]
  | error e => simp [eseq]

theorem eseq_error_cases (a b : Except VError Unit) (e : VError)
    (h : eseq a b = .error e) :
    a = .error e ∨ (a = .ok () ∧ b = .error e) := by
  cases a with
  | ok u =>
      cases u
      exact Or.inr ⟨rfl, h⟩
  | error e2 =>
      simp only [eseq] at h
      exact Or.inl h

/-- The per-choice reference targets of a choice list. -/
theorem validateChoiceList_spec (nodeId : String)
    (allNodes : List (String × RawNode)) (cs : List RawChoice)
    (hwf : ∀ c ∈ cs, truthyS c.nextNode = true) :
    (validateChoiceList nodeId allNodes cs = .ok () ↔
      ∀ t ∈ cs.filterMap (·.nextNode), (allNodes.lookup t).isSome = true) ∧
    (∀ e, validateChoiceList nodeId allNodes cs = .error e →
      ∃ t, e = .choiceTargetMissing nodeId t ∧
        t ∈ cs.filterMap (·.nextNode) ∧ (allNodes.lookup t).isNone = true) := by
  induction cs with
  | nil =>
      constructor
      · simp [validateChoiceList]
      · intro e he
        exact absurd he (by simp [validateChoiceList])
  | cons c rest ih =>
      have hc := hwf c (List.mem_cons_self c rest)
      have hrest := ih fun c2 hc2 => hwf c2 (List.mem_cons_of_mem c hc2)
      cases hcn : c.nextNode with
      | none =>
          rw [hcn] at hc
          exact absurd hc (by simp [truthyS])
      | some target =>
          rw [hcn] at hc
          have htne : target ≠ "" := by simpa [truthyS] using hc
          have hfm : (c :: rest).filterMap (·.nextNode) =
              target :: rest.filterMap (·.nextNode) := by
            simp [List.filterMap_cons, hcn]
          rw [hfm]
          cases hlk : allNodes.lookup target with
          | none =>
              constructor
              · simp only [validateChoiceList, hcn]
                rw [if_neg htne, hlk, if_pos Option.isNone_none]
                constructor
                · intro he
                  exact absurd he (by simp)
                · intro hall
                  have := hall target (List.mem_cons_self _ _)
                  rw [hlk] at this
                  exact absurd this (by simp)
              · intro e he
                simp only [validateChoiceList, hcn] at he
                rw [if_neg htne, hlk, if_pos Option.isNone_none] at he
                refine ⟨target, ?_, List.mem_cons_self _ _, by rw [hlk]; rfl⟩
                exact (Except.error.inj he).symm
          | some found =>
              constructor
              · simp only [validateChoiceList, hcn]
                rw [if_neg htne, hlk, if_neg (by simp)]
                rw [hrest.1]
                constructor
                · intro hall t ht
                  rcases List.mem_cons.mp ht with rfl | ht
                  · rw [hlk]
                    rfl
                  · exact hall t ht
                · intro hall t ht
                  exact hall t (List.mem_cons_of_mem _ ht)
              · intro e he
                simp only [validateChoiceList, hcn] at he
                rw [if_neg htne, hlk, if_neg (by simp)] at he
                obtain ⟨t, he2, hmem, hnone⟩ := hrest.2 e he
                exact ⟨t, he2, List.mem_cons_of_mem _ hmem, hnone⟩

/-- Structurally valid scene character lists validate. -/
theorem validateSceneChars_ok (nodeId : String) (l : List RawSceneChar)
    (hwf : ∀ c ∈ l, sceneCharWF c = true) :
    validateSceneChars nodeId l = .ok () := by
  induction l with
  | nil => rfl
  | cons c rest ih =>
      have hc := hwf c (List.mem_cons_self c rest)
      simp only [sceneCharWF, Bool.and_eq_true, Bool.or_eq_true,
        Bool.not_eq_true'] at hc
      obtain ⟨⟨⟨hid, hpos⟩, hvalid⟩, hexpr⟩ := hc
      rw [validateSceneChars]
      rw [if_neg (by simp [hid]), if_neg (by simp [hpos]),
        if_neg fun hn => hn hvalid]
      rw [if_neg ?_]
      · exact ih fun c2 hc2 => hwf c2 (List.mem_cons_of_mem c hc2)
      · rintro ⟨hte, hnc⟩
        rcases hexpr with h | h
        · rw [h] at hte
          exact absurd hte (by simp)
        · exact hnc h

/-- Structurally valid animation lists validate. -/
theorem validateAnimations_ok (nodeId : String) (l : List RawAnimation)
    (hwf : ∀ a ∈ l, animationWF a = true) :
    validateAnimations nodeId l = .ok () := by
  induction l with
  | nil => rfl
  | cons a rest ih =>
      have ha := hwf a (List.mem_cons_self a rest)
      simp only [animationWF, Bool.and_eq_true] at ha
      rw [validateAnimations]
      rw [if_neg (by simp [ha.1]), if_neg (by simp [ha.2])]
      exact ih fun a2 ha2 => hwf a2 (List.mem_cons_of_mem a ha2)

/-- The three type-independent checks pass on a common-well-formed
node. -/
theorem commonChecks_ok (nodeId : String) (node : RawNode)
    (hwf : nodeCommonWF node = true) :
    checkAnimationField nodeId node = .ok () ∧
    checkTextEffects nodeId node = .ok () ∧
    checkMetadataEmotion nodeId node = .ok () := by
  simp only [nodeCommonWF, Bool.and_eq_true] at hwf
  obtain ⟨⟨hanim, hfx⟩, hmd⟩ := hwf
  refine ⟨?_, ?_, ?_⟩
  · cases han : node.animations with
    | none => simp [checkAnimationField, han]
    | some anims =>
        rw [han] at hanim
        simp only [checkAnimationField, han]
        exact validateAnimations_ok nodeId anims
          (by simpa [List.all_eq_true] using hanim)
  · cases hdo : node.dialogueOptions with
    | none => simp [checkTextEffects, hdo]
    | some dOpts =>
        rw [hdo] at hfx
        cases hfx2 : dOpts.textEffects with
        | none => simp [checkTextEffects, hdo, hfx2]
        | some fx =>
            simp only [hfx2] at hfx
            simp only [checkTextEffects, hdo, hfx2]
            rw [if_neg fun hn => hn hfx]
  · cases hmd2 : node.metadata with
    | none => simp [checkMetadataEmotion, hmd2]
    | some md =>
        rw [hmd2] at hmd
        simp only [Bool.or_eq_true, Bool.not_eq_true'] at hmd
        simp only [checkMetadataEmotion, hmd2]
        rw [if_neg ?_]
        rcases hmd with h | h
        · rintro ⟨hte, _⟩
          rw [h] at hte
          exact absurd hte (by simp)
        · rintro ⟨_, hnc⟩
          exact hnc h

theorem eseq_ok_left (b : Except VError Unit) : eseq (.ok ()) b = b := rfl

theorem eseq_ok_right (a : Except VError Unit) : eseq a (.ok ()) = a := by
  cases a with
  | ok u => cases u; rfl
  | error e => rfl

/-- The type-dependent switch accepts a structurally well-formed node
exactly when all its choice targets resolve, and any error it raises is
a choice-target error naming the node. -/
theorem validateNodeSwitch_spec (nodeId : String) (node : RawNode)
    (allNodes : List (String × RawNode)) (h : nodeStructWF node = true) :
    (validateNodeSwitch nodeId node allNodes = .ok () ↔
      ∀ t ∈ (match node.choices with
             | some cs => List.filterMap RawChoice.nextNode cs
             | none => ([] : List String)),
        (allNodes.lookup t).isSome = true) ∧
    (∀ e, validateNodeSwitch nodeId node allNodes = .error e →
      ∃ t, e = .choiceTargetMissing nodeId t ∧
        t ∈ (match node.choices with
             | some cs => List.filterMap RawChoice.nextNode cs
             | none => ([] : List String)) ∧
        (allNodes.lookup t).isNone = true) := by
  simp only [nodeStructWF, Bool.and_eq_true] at h
  obtain ⟨hcommon, hty⟩ := h
  cases hnt : node.nodeType with
  | none =>
      rw [hnt] at hty
      exact absurd hty (by simp)
  | some ty =>
      simp only [hnt] at hty
      by_cases hteq : ty = ""
      · rw [if_pos hteq] at hty
        exact absurd hty (by simp)
      rw [if_neg hteq] at hty
      by_cases hdl : ty = "dialogue"
      · subst hdl
        rw [if_pos rfl] at hty
        simp only [Bool.and_eq_true] at hty
        obtain ⟨⟨htext, hchar⟩, hchoices⟩ := hty
        rw [Option.isNone_iff_eq_none] at hchoices
        simp only [validateNodeSwitch, hnt]
        rw [if_pos trivial, if_neg fun hn => hn htext,
          if_neg fun hn => hn hchar]
        simp [hchoices]
      rw [if_neg hdl] at hty
      by_cases hch : ty = "choice"
      · subst hch
        rw [if_pos rfl] at hty
        cases hcs : node.choices with
        | none =>
            rw [hcs] at hty
            exact absurd hty (by simp)
        | some l =>
            cases l with
            | nil =>
                rw [hcs] at hty
                exact absurd hty (by simp)
            | cons c rest =>
                rw [hcs] at hty
                have hall : ∀ c2 ∈ c :: rest, truthyS c2.nextNode = true := by
                  simpa [List.all_eq_true] using hty
                have hspec := validateChoiceList_spec nodeId allNodes
                  (c :: rest) hall
                simp only [validateNodeSwitch, hnt, hcs]
                rw [if_neg (by decide), if_pos trivial]
                exact hspec
      rw [if_neg hch] at hty
      by_cases hbr : ty = "branch"
      · subst hbr
        rw [if_pos rfl] at hty
        simp only [Bool.and_eq_true] at hty
        obtain ⟨⟨hcond, hnn⟩, hchoices⟩ := hty
        rw [Option.isNone_iff_eq_none] at hchoices
        simp only [validateNodeSwitch, hnt]
        rw [if_neg (by decide), if_neg (by decide), if_pos trivial,
          if_neg fun hn => hn hcond, if_neg fun hn => hn hnn]
        simp [hchoices]
      rw [if_neg hbr] at hty
      by_cases hsc : ty = "scene"
      · subst hsc
        rw [if_pos rfl] at hty
        simp only [Bool.and_eq_true] at hty
        obtain ⟨⟨hsid, hchars⟩, hchoices⟩ := hty
        rw [Option.isNone_iff_eq_none] at hchoices
        cases hcl : node.characters with
        | none =>
            rw [hcl] at hchars
            exact absurd hchars (by simp)
        | some chars =>
            rw [hcl] at hchars
            simp only [validateNodeSwitch, hnt, hcl]
            rw [if_neg (by decide), if_neg (by decide), if_neg (by decide),
              if_pos trivial, if_neg fun hn => hn hsid]
            rw [validateSceneChars_ok nodeId chars
              (by simpa [List.all_eq_true] using hchars)]
            simp [hchoices]
      rw [if_neg hsc] at hty
      by_cases hend : ty = "end"
      · subst hend
        rw [if_pos rfl] at hty
        rw [Option.isNone_iff_eq_none] at hty
        simp only [validateNodeSwitch, hnt]
        rw [if_neg (by decide), if_neg (by decide), if_neg (by decide),
          if_neg (by decide), if_pos trivial]
        simp [hty]
      rw [if_neg hend] at hty
      exact absurd hty (by simp)

/-- The generic nextNode check accepts exactly when the truthy nextNode
resolves, and its only error is a next-node error naming the node. -/
theorem checkNextNode_spec (nodeId : String) (node : RawNode)
    (allNodes : List (String × RawNode)) :
    (checkNextNode nodeId node allNodes = .ok () ↔
      ∀ t ∈ (match node.nextNode with
             | some t => if t = "" then ([] : List String) else [t]
             | none => []),
        (allNodes.lookup t).isSome = true) ∧
    (∀ e, checkNextNode nodeId node allNodes = .error e →
      ∃ t, e = .nextNodeMissing nodeId t ∧
        t ∈ (match node.nextNode with
             | some t => if t = "" then ([] : List String) else [t]
             | none => []) ∧
        (allNodes.lookup t).isNone = true) := by
  cases hnn : node.nextNode with
  | none =>
      constructor
      · simp [checkNextNode, hnn]
      · intro e he
        simp [checkNextNode, hnn] at he
  | some target =>
      by_cases hte : target = ""
      · subst hte
        constructor
        · simp [checkNextNode, hnn]
        · intro e he
          simp [checkNextNode, hnn] at he
      · cases hlk : allNodes.lookup target with
        | none =>
            constructor
            · simp only [checkNextNode, hnn]
              rw [if_pos ⟨hte, by rw [hlk]; rfl⟩]
              constructor
              · intro he
                exact absurd he (by simp)
              · intro hall
                have := hall target (by simp [hte])
                rw [hlk] at this
                exact absurd this (by simp)
            · intro e he
              simp only [checkNextNode, hnn] at he
              rw [if_pos ⟨hte, by rw [hlk]; rfl⟩] at he
              exact ⟨target, (Except.error.inj he).symm, by simp [hte],
                by rw [hlk]; rfl⟩
        | some found =>
            constructor
            · simp only [checkNextNode, hnn]
              rw [if_neg fun hc => by simp [hlk] at hc]
              constructor
              · intro _ t ht
                simp only [if_neg hte, List.mem_singleton] at ht
                subst ht
                rw [hlk]
                rfl
              · intro _
                rfl
            · intro e he
              simp only [checkNextNode, hnn] at he
              rw [if_neg fun hc => by simp [hlk] at hc] at he
              exact absurd he (by simp)

/-- validateNode on a structurally well-formed node accepts exactly
when every referenced node id resolves; any rejection is a dangling
reference error naming the offending node. -/
theorem validateNode_spec (nodeId : String) (node : RawNode)
    (allNodes : List (String × RawNode)) (h : nodeStructWF node = true) :
    (validateNode nodeId node allNodes = .ok () ↔
      ∀ t ∈ refTargets node, (allNodes.lookup t).isSome = true) ∧
    (∀ e, validateNode nodeId node allNodes = .error e →
      ∃ t, (e = .choiceTargetMissing nodeId t ∨ e = .nextNodeMissing nodeId t) ∧
        t ∈ refTargets node ∧ (allNodes.lookup t).isNone = true) := by
  have hswitch := validateNodeSwitch_spec nodeId node allNodes h
  have hnext := checkNextNode_spec nodeId node allNodes
  have hcommon : nodeCommonWF node = true := by
    simp only [nodeStructWF, Bool.and_eq_true] at h
    exact h.1
  obtain ⟨hA, hB, hC⟩ := commonChecks_ok nodeId node hcommon
  have htype : truthyS node.nodeType = true := by
    simp only [nodeStructWF, Bool.and_eq_true] at h
    obtain ⟨_, hty⟩ := h
    cases hnt : node.nodeType with
    | none =>
        rw [hnt] at hty
        exact absurd hty (by simp)
    | some ty =>
        simp only [hnt] at hty
        by_cases he : ty = ""
        · rw [if_pos he] at hty
          exact absurd hty (by simp)
        · simp [truthyS, he]
  have hform : validateNode nodeId node allNodes =
      eseq (validateNodeSwitch nodeId node allNodes)
        (checkNextNode nodeId node allNodes) := by
    rw [validateNode, if_neg fun hn => hn htype, eseq_ok_left,
      hA, hB, hC, eseq_ok_left, eseq_ok_left, eseq_ok_right]
  rw [hform]
  constructor
  · rw [eseq_ok_iff, hswitch.1, hnext.1]
    constructor
    · rintro ⟨h1, h2⟩ t ht
      rcases List.mem_append.mp (by simpa [refTargets] using ht) with ht | ht
      · exact h1 t ht
      · exact h2 t ht
    · intro hall
      constructor
      · intro t ht
        exact hall t (by simp [refTargets, List.mem_append]; exact Or.inl ht)
      · intro t ht
        exact hall t (by simp [refTargets, List.mem_append]; exact Or.inr ht)
  · intro e he
    rcases eseq_error_cases _ _ _ he with he | ⟨_, he⟩
    · obtain ⟨t, he2, hmem, hnone⟩ := hswitch.2 e he
      refine ⟨t, Or.inl he2, ?_, hnone⟩
      simp only [refTargets, List.mem_append]
      exact Or.inl hmem
    · obtain ⟨t, he2, hmem, hnone⟩ := hnext.2 e he
      refine ⟨t, Or.inr he2, ?_, hnone⟩
      simp only [refTargets, List.mem_append]
      exact Or.inr hmem

/-- The validation loop over all nodes. -/
theorem validateNodeList_spec (allNodes : List (String × RawNode))
    (l : List (String × RawNode))
    (hwf : ∀ kv ∈ l, nodeStructWF kv.2 = true) :
    (validateNodeList allNodes l = .ok () ↔
      ∀ kv ∈ l, ∀ t ∈ refTargets kv.2, (allNodes.lookup t).isSome = true) ∧
    (∀ e, validateNodeList allNodes l = .error e →
      ∃ nodeId node t, (nodeId, node) ∈ l ∧
        (e = .choiceTargetMissing nodeId t ∨ e = .nextNodeMissing nodeId t) ∧
        t ∈ refTargets node ∧ (allNodes.lookup t).isNone = true) := by
  induction l with
  | nil =>
      constructor
      · simp [validateNodeList]
      · intro e he
        simp [validateNodeList] at he
  | cons kv rest ih =>
      obtain ⟨nodeId, node⟩ := kv
      have hnode := validateNode_spec nodeId node allNodes
        (hwf (nodeId, node) (List.mem_cons_self _ _))
      have hrest := ih fun kv2 hkv2 => hwf kv2 (List.mem_cons_of_mem _ hkv2)
      rw [validateNodeList]
      constructor
      · rw [eseq_ok_iff, hnode.1, hrest.1]
        constructor
        · rintro ⟨h1, h2⟩ kv2 hkv2
          rcases List.mem_cons.mp hkv2 with rfl | hkv2
          · exact h1
          · exact h2 kv2 hkv2
        · intro hall
          exact ⟨hall _ (List.mem_cons_self _ _),
            fun kv2 hkv2 => hall kv2 (List.mem_cons_of_mem _ hkv2)⟩
      · intro e he
        rcases eseq_error_cases _ _ _ he with he | ⟨_, he⟩
        · obtain ⟨t, hor, hmem, hnone⟩ := hnode.2 e he
          exact ⟨nodeId, node, t, List.mem_cons_self _ _, hor, hmem, hnone⟩
        · obtain ⟨nodeId2, node2, t, hm, hor, hmem, hnone⟩ := hrest.2 e he
          exact ⟨nodeId2, node2, t, List.mem_cons_of_mem _ hm, hor, hmem,
            hnone⟩

/-- C2: on a structurally well-formed story document, validateStory
accepts exactly when startNode is a key of nodes and every nextNode,
choice target and branch target id is a key of nodes; a story with a
dangling reference is rejected with a validation error naming the
offending node. -/
theorem validateStory_refint (s : RawStory) (h : storyStructWF s = true) :
    (validateStory s = .ok () ↔
      ((s.nodes.lookup (s.startNode.getD "")).isSome = true ∧
       ∀ kv ∈ s.nodes, ∀ t ∈ refTargets kv.2,
         (s.nodes.lookup t).isSome = true)) ∧
    (∀ e, validateStory s = .error e →
      (∃ startId, s.startNode = some startId ∧ e = .startNodeMissing startId ∧
        (s.nodes.lookup startId).isNone = true) ∨
      (∃ nodeId node t, (nodeId, node) ∈ s.nodes ∧
        (e = .choiceTargetMissing nodeId t ∨ e = .nextNodeMissing nodeId t) ∧
        t ∈ refTargets node ∧ (s.nodes.lookup t).isNone = true)) := by
  simp only [storyStructWF, Bool.and_eq_true, decide_eq_true_eq] at h
  obtain ⟨⟨⟨⟨hid, htitle⟩, hstart⟩, hcount⟩, hnodes⟩ := h
  have hlist := validateNodeList_spec s.nodes s.nodes
    (by simpa [List.all_eq_true] using hnodes)
  cases hsn : s.startNode with
  | none =>
      rw [hsn] at hstart
      exact absurd hstart (by simp [truthyS])
  | some startId =>
      have hstart2 : truthyS (some startId) = true := hsn ▸ hstart
      have hvs : validateStory s =
          (if (s.nodes.lookup startId).isNone = true
           then .error (.startNodeMissing startId)
           else validateNodeList s.nodes s.nodes) := by
        simp only [validateStory, hsn]
        rw [if_neg fun hn => hn hid, if_neg fun hn => hn htitle,
          if_neg fun hn => hn hstart2, if_neg hcount]
      rw [hvs]
      simp only [hsn, Option.getD_some]
      cases hlk : s.nodes.lookup startId with
      | none =>
          rw [if_pos Option.isNone_none]
          constructor
          · constructor
            · intro he
              exact absurd he (by simp)
            · rintro ⟨hsome, _⟩
              exact absurd hsome (by simp)
          · intro e he
            left
            exact ⟨startId, rfl, (Except.error.inj he).symm,
              by rw [hlk]; rfl⟩
      | some found =>
          rw [if_neg (by simp)]
          constructor
          · rw [hlist.1]
            constructor
            · intro hall
              exact ⟨rfl, hall⟩
            · rintro ⟨_, hall⟩
              exact hall
          · intro e he
            right
            exact hlist.2 e he

/-- Witness for C2: a well-formed two-node story validates, and the
same story with the dialogue node pointing at a missing id is rejected
with an error naming the offending node n1. -/
theorem validateStory_refint_witness :
    validateStory rawDemo = .ok () ∧
    validateStory rawDangling = .error (.nextNodeMissing "n1" "ghost") :=
  ⟨(validateStory_refint rawDemo (by decide)).1.mpr (by decide), rfl⟩

end DynStory
